import Mathlib

/-!
Verification of the shutdownHelper scheduling core (src/src/main.rs).

The Rust program schedules Windows shutdowns either manually (one-shot, from a
user-typed "HH:MM" string) or weekly (recurring, from a config mapping weekday
names to time strings).  This file gives a shallow embedding of the core logic:

* `get_delay_seconds`   — src/src/main.rs lines 71–80;
* the weekly-delay arithmetic of `activate_schedules` (lines 182–190);
* chrono's `NaiveTime::parse_from_str(_, "%H:%M")` as used at lines 129 and 159
  (modelled from chrono 0.4's parser: each numeric field strims leading
  whitespace, then consumes 1 to 2 ASCII digits; the `:` is a literal that must
  match immediately; the whole input must be consumed; hour/minute are range
  checked before a `NaiveTime` is produced);
* the `^\d{2}:\d{2}$` regex of `save_schedule` (line 218), with `\d` modelled
  as an ASCII digit;
* the countdown thread bodies of `schedule_manual_shutdown` (lines 136–145)
  and `activate_schedules` (lines 192–203), as event traces;
* the mutable GUI state (`ShutdownApp`) restricted to the fields the scheduling
  operations read or write.

Wall-clock instants are modelled at nanosecond resolution (chrono's
`Local::now()` is sub-second precise and `Duration::num_seconds` truncates),
as the nanosecond offset from the current local midnight; the calendar date
cancels out of every difference the code computes, so only the offset and the
weekday index of "now" are kept.
-/

namespace ShutdownHelper

/-- One nanosecond-count per day. -/
def nanosPerDay : Int := 86400 * 1000000000

/-- Lines 71–80.  `get_delay_seconds(&target_time)`: take today's date at the
target time; if that instant is `<=` now, move the target one day forward;
return the signed difference in whole seconds (`num_seconds` truncates, which
for the nonnegative differences produced here is division rounding down).
`targetSec` is the target `NaiveTime` as seconds after midnight (its seconds
field is 0 when it comes from `"%H:%M"` parsing); `nowNano` is "now" as
nanoseconds after the current local midnight. -/
def get_delay_seconds (targetSec : Nat) (nowNano : Nat) : Int :=
  ((if (targetSec : Int) * 1000000000 ≤ (nowNano : Int)
      then (targetSec : Int) * 1000000000 + nanosPerDay
      else (targetSec : Int) * 1000000000) - (nowNano : Int)) / 1000000000

/-- Lines 182–186.  `days_to_wait` from the 0–6 positions of today's and the
target weekday in `weekday_order`. -/
def days_to_wait (today_index target_index : Nat) : Nat :=
  if target_index ≥ today_index then target_index - today_index
  else 7 - today_index + target_index

/-- Line 187.  The weekly delay before the `delay < 0` correction:
`get_delay_seconds(&target_time) + days_to_wait * 24 * 3600`. -/
def rawWeeklyDelay (targetSec nowNano : Nat) (today_index target_index : Nat) : Int :=
  get_delay_seconds targetSec nowNano + (days_to_wait today_index target_index : Int) * 24 * 3600

/-- Lines 187–190.  The weekly delay actually used: the raw delay, plus one
day when it came out negative. -/
def weeklyDelay (targetSec nowNano : Nat) (today_index target_index : Nat) : Int :=
  if rawWeeklyDelay targetSec nowNano today_index target_index < 0 then
    rawWeeklyDelay targetSec nowNano today_index target_index + 24 * 3600
  else rawWeeklyDelay targetSec nowNano today_index target_index

/-! ### chrono `"%H:%M"` parsing and the save-path regex -/

/-- Numeric value of an ASCII digit character. -/
def digitVal (c : Char) : Nat := c.toNat - 48

/-- chrono `scan::number(s, 1, 2)`: consume one or, greedily, two ASCII
digits from the front of the input; fail on empty input or a non-digit. -/
def scanNumber2 : List Char → Option (Nat × List Char)
  | [] => none
  | c :: rest =>
    if c.isDigit then
      match rest with
      | [] => some (digitVal c, [])
      | c2 :: rest2 =>
        if c2.isDigit then some (digitVal c * 10 + digitVal c2, rest2)
        else some (digitVal c, rest)
    else none

/- chrono `NaiveTime::parse_from_str(s, "%H:%M")` (lines 129 and 159) is
modelled by `chronoParseHM` below, staged for proof convenience.  The format
items are `[Numeric(Hour), Literal(":"), Numeric(Minute)]`; a numeric item
first drops leading whitespace then scans 1–2 digits; the literal must match
immediately.  All failure modes collapse to `none`, as the Rust caller only
pattern-matches `Ok`/`Err`. -/

/-- Final stage of `"%H:%M"` parsing: the input must be exhausted
(`TOO_LONG` otherwise) and hour/minute must be in range (`OUT_OF_RANGE`
otherwise, from `Parsed::set_hour` / `to_naive_time`). -/
def parseAfterMinutes (hv mv : Nat) (r3 : List Char) : Option (Nat × Nat) :=
  match r3 with
  | [] => if hv ≤ 23 ∧ mv ≤ 59 then some (hv, mv) else none
  | _ :: _ => none

/-- After the literal `:`: the minute item drops leading whitespace and scans
1–2 digits. -/
def parseAfterColon (hv : Nat) (r2 : List Char) : Option (Nat × Nat) :=
  match scanNumber2 (List.dropWhile Char.isWhitespace r2) with
  | none => none
  | some (mv, r3) => parseAfterMinutes hv mv r3

/-- After the hour item: the literal `:` must match immediately. -/
def parseAfterHour (hv : Nat) (r1 : List Char) : Option (Nat × Nat) :=
  match r1 with
  | [] => none
  | c :: r2 => if c = ':' then parseAfterColon hv r2 else none

def chronoParseHM (s : List Char) : Option (Nat × Nat) :=
  match scanNumber2 (List.dropWhile Char.isWhitespace s) with
  | none => none
  | some (hv, r1) => parseAfterHour hv r1

/-- Line 218.  The save-path validator `Regex::new(r"^\d{2}:\d{2}$")`
(`\d` modelled as an ASCII digit): exactly two digits, a colon, two digits.
Note it performs no range check on the numeric values. -/
def timeRegexMatches : List Char → Bool
  | [d1, d2, c, d3, d4] => d1.isDigit && d2.isDigit && (c = ':') && d3.isDigit && d4.isDigit
  | _ => false

/-- Rust `str::trim` on the character list (whitespace stripped from both
ends; the ASCII whitespace of `Char.isWhitespace` covers every character the
program ever feeds it). -/
def trimChars (s : List Char) : List Char :=
  ((s.dropWhile Char.isWhitespace).reverse.dropWhile Char.isWhitespace).reverse

/-- Value of a digit string, most significant first (chrono accumulates
`v = v * 10 + digit`). -/
def digitsVal (ds : List Char) : Nat := ds.foldl (fun n c => n * 10 + digitVal c) 0

/-! ### Countdown threads as event traces -/

/-- Observable steps of a countdown thread: a sleep of so many seconds, the
warning `MessageBox`, or the `shutdown /s /t 0` invocation. -/
inductive TaskEvent
  | sleep (secs : Nat)
  | warn
  | shutdown
deriving DecidableEq

/-- Rust `x as u64` on an `i64` value: two's-complement wrap into `[0, 2^64)`. -/
def u64cast (x : Int) : Nat := (x % (2 ^ 64 : Int)).toNat

/-- One pass of the countdown body shared by lines 137–144 and 193–199:
with `delay > 300`, sleep `delay - 300`, show the warning, sleep `300`；
otherwise sleep `delay`; in both cases then shut down (line 144 / 200). -/
def countdownCycle (delay : Int) : List TaskEvent :=
  if delay > 300 then
    [TaskEvent.sleep (u64cast (delay - 300)), TaskEvent.warn,
     TaskEvent.sleep 300, TaskEvent.shutdown]
  else
    [TaskEvent.sleep (u64cast delay), TaskEvent.shutdown]

/-- Lines 136–145: the one-shot manual thread runs a single countdown pass and
returns (the closure ends after `shutdown_pc()`). -/
def manualTaskTrace (delay : Int) : List TaskEvent := countdownCycle delay

/-- Lines 192–203: the recurring thread is `loop { ...cycle...; delay = 7 * 24
* 3600; }` — the delay used by cycle `n` is the spawn delay for `n = 0` and
`7 * 24 * 3600` for every later cycle. -/
def recurringDelay (delay : Int) : Nat → Int
  | 0 => delay
  | _ + 1 => 7 * 24 * 3600

/-- The event trace of the `n`-th cycle of a recurring countdown thread
spawned with initial delay `delay`.  Being total in `n`, it witnesses that the
loop has a cycle for every `n`: the thread never terminates on its own. -/
def recurringCycleTrace (delay : Int) (n : Nat) : List TaskEvent :=
  countdownCycle (recurringDelay delay n)

/-! ### The application state and the scheduling operations -/

/-- `self.manual_status` (a German message in the source), reduced to its
three shapes: the initial text, the success report with the computed delay and
the echoed input, and the invalid-format report of line 147. -/
inductive ManualStatus
  | noneScheduled
  | scheduled (delay : Int) (text : List Char)
  | invalidFormat
deriving DecidableEq

/-- `self.schedule_status`, reduced to its shapes (lines 120, 210, 236). -/
inductive ScheduleStatus
  | initial
  | activated
  | savedAndActivated
deriving DecidableEq

/-- The fields of `ShutdownApp` that the scheduling operations read or write.
`manual_tasks` is the task registry: `Arc<Mutex<Vec<(String, i64)>>>`, held as
the vector it protects.  `schedule` is `config.schedule`; a `HashMap` iterates
in unspecified order, so it is kept as an association list in an arbitrary
order. -/
structure AppState where
  manual_input : List Char
  manual_status : ManualStatus
  manual_tasks : List (List Char × Int)
  schedule : List (String × List (List Char))
  schedule_status : ScheduleStatus
deriving DecidableEq

/-- Lines 128–149.  `schedule_manual_shutdown`: parse the trimmed input; on
success compute the delay, set the status, push `(manual_input, delay)` onto
the registry and spawn a one-shot thread (returned as `some delay`); on
failure set the error status, touch nothing else and spawn nothing. -/
def schedule_manual_shutdown (st : AppState) (nowNano : Nat) : AppState × Option Int :=
  match chronoParseHM (trimChars st.manual_input) with
  | some (h, m) =>
    ({ st with
        manual_status := ManualStatus.scheduled
          (get_delay_seconds (h * 3600 + m * 60) nowNano) st.manual_input,
        manual_tasks := st.manual_tasks ++
          [(st.manual_input, get_delay_seconds (h * 3600 + m * 60) nowNano)] },
      some (get_delay_seconds (h * 3600 + m * 60) nowNano))
  | none => ({ st with manual_status := ManualStatus.invalidFormat }, none)

/-- Line 162's `now.weekday().to_string()`: chrono's `Display` for `Weekday`
prints the abbreviated English day name (`"Mon"`, …, `"Sun"`), not the full
name the adjacent comment expects.  `i` is `num_days_from_monday`. -/
def chronoWeekdayName (i : Nat) : String :=
  match i with
  | 0 => "Mon"
  | 1 => "Tue"
  | 2 => "Wed"
  | 3 => "Thu"
  | 4 => "Fri"
  | 5 => "Sat"
  | _ => "Sun"

/-- Lines 163–165: `weekday_order`. -/
def weekday_order : List String :=
  ["Monday", "Tuesday", "Wednesday", "Thursday", "Friday", "Saturday", "Sunday"]

/-- `Iterator::position`: index of the first occurrence, if any. -/
def listPos (x : String) : List String → Option Nat
  | [] => none
  | y :: ys => if y = x then some 0 else (listPos x ys).map (· + 1)

/-- The per-entry outcome of the `activate_schedules` loop body: the entry is
inactive (no first element, or blank after trimming), or one of the three
diagnosed skips (`continue` at line 171, `continue` at line 180, the `else` at
line 205), or a recurring thread is spawned with the computed delay. -/
inductive EntryOutcome
  | inactive
  | todayUnknown (today : String)
  | dayUnknown (day : String)
  | badTime (day : String) (time : List Char)
  | spawned (day : String) (time : List Char) (delay : Int)
deriving DecidableEq

/-- Lines 155–209, the loop body for one `(day, times)` pair.  `todayStr` is
the value of `now.weekday().to_string()`; `nowNano` the offset of "now" from
midnight.  Order as in the source: first element, blank check, time parse,
lookup of today, lookup of the target day, then the delay computation and the
spawn. -/
def processEntry (todayStr : String) (nowNano : Nat) (day : String)
    (times : List (List Char)) : EntryOutcome :=
  match times.head? with
  | none => EntryOutcome.inactive
  | some time_str =>
    if trimChars time_str = [] then EntryOutcome.inactive
    else
      match chronoParseHM time_str with
      | none => EntryOutcome.badTime day time_str
      | some (h, m) =>
        match listPos todayStr weekday_order with
        | none => EntryOutcome.todayUnknown todayStr
        | some today_index =>
          match listPos day weekday_order with
          | none => EntryOutcome.dayUnknown day
          | some target_index =>
            EntryOutcome.spawned day time_str
              (weeklyDelay (h * 3600 + m * 60) nowNano today_index target_index)

/-- Lines 153–211.  `activate_schedules`: process every entry of the cloned
schedule in turn and set the status line; nothing else in the state — in
particular not the `manual_tasks` registry — is touched.  `nowWd` is now's
weekday as `num_days_from_monday`. -/
def activate_schedules (st : AppState) (nowWd : Nat) (nowNano : Nat) :
    AppState × List EntryOutcome :=
  ({ st with schedule_status := ScheduleStatus.activated },
   st.schedule.map (fun e => processEntry (chronoWeekdayName nowWd) nowNano e.1 e.2))

/-- Lines 220–232, the per-day action of `save_schedule`: an active day whose
trimmed time passes the regex keeps that trimmed time; anything else is stored
as the single empty string. -/
def saveEntry (active : Bool) (time : List Char) : List (List Char) :=
  if active then
    if timeRegexMatches (trimChars time) then [trimChars time] else [[]]
  else [[]]

/-- The strings accepted by chrono's `"%H:%M"` parser: optional whitespace,
one or two digits worth at most 23, a colon, optional whitespace, one or two
digits worth at most 59, end of input. -/
def lenientHM (s : List Char) : Prop :=
  ∃ w1 ds w2 ms,
    (∀ c ∈ w1, c.isWhitespace = true) ∧ (∀ c ∈ ds, c.isDigit = true) ∧
    (∀ c ∈ w2, c.isWhitespace = true) ∧ (∀ c ∈ ms, c.isDigit = true) ∧
    (ds.length = 1 ∨ ds.length = 2) ∧ (ms.length = 1 ∨ ms.length = 2) ∧
    digitsVal ds ≤ 23 ∧ digitsVal ms ≤ 59 ∧
    s = w1 ++ ds ++ ':' :: (w2 ++ ms)

/-- The strings accepted by the `^\d{2}:\d{2}$` regex: exactly two digits, a
colon, exactly two digits — with no constraint on the numeric values. -/
def strictShape (s : List Char) : Prop :=
  ∃ a b c d : Char, a.isDigit = true ∧ b.isDigit = true ∧ c.isDigit = true ∧
    d.isDigit = true ∧ s = [a, b, ':', c, d]

/-- Outcomes in which the `activate_schedules` loop body skipped the entry
after printing a diagnostic (as opposed to silently ignoring a blank entry or
spawning a thread). -/
def isDiagnosedSkip : EntryOutcome → Bool
  | EntryOutcome.todayUnknown _ => true
  | EntryOutcome.dayUnknown _ => true
  | EntryOutcome.badTime _ _ => true
  | _ => false

/-- Example state: empty registry, one active Monday entry, manual input
`"22:15"`. -/
def exState : AppState :=
  ⟨("22:15".data), ManualStatus.noneScheduled, [],
   [("Monday", [("10:00".data)])], ScheduleStatus.initial⟩

/-- Example state with the out-of-range manual input `"25:00"`. -/
def exState25 : AppState :=
  ⟨("25:00".data), ManualStatus.noneScheduled, [], [], ScheduleStatus.initial⟩

/-! ## Helper lemmas -/

lemma get_delay_seconds_nonneg (t offs : Nat) (hoffs : offs < 86400 * 1000000000) :
    0 ≤ get_delay_seconds t offs := by
  unfold get_delay_seconds nanosPerDay
  split
  · apply Int.ediv_nonneg _ (by norm_num)
    omega
  · apply Int.ediv_nonneg _ (by norm_num)
    omega

lemma days_to_wait_le_six {ti di : Nat} (hti : ti ≤ 6) (hdi : di ≤ 6) :
    days_to_wait ti di ≤ 6 := by
  unfold days_to_wait
  split <;> omega

lemma rawWeeklyDelay_nonneg (t offs ti di : Nat) (hoffs : offs < 86400 * 1000000000) :
    0 ≤ rawWeeklyDelay t offs ti di := by
  have hg := get_delay_seconds_nonneg t offs hoffs
  unfold rawWeeklyDelay
  generalize get_delay_seconds t offs = g at hg ⊢
  generalize days_to_wait ti di = d
  omega

lemma u64cast_of_nonneg {x : Int} (h0 : 0 ≤ x) (h : x < 2 ^ 64) : u64cast x = x.toNat := by
  unfold u64cast
  rw [Int.emod_eq_of_lt h0 h]

lemma countdownCycle_shutdown_count (x : Int) :
    (countdownCycle x).count TaskEvent.shutdown = 1 := by
  unfold countdownCycle
  split <;> simp [List.count_cons]

lemma countdownCycle_getLast (x : Int) :
    (countdownCycle x).getLast? = some TaskEvent.shutdown := by
  unfold countdownCycle
  split <;> rfl

lemma digit_not_ws {c : Char} (h : c.isDigit = true) : c.isWhitespace = false := by
  cases hws : c.isWhitespace with
  | false => rfl
  | true =>
    exfalso
    simp [Char.isWhitespace] at hws
    rcases hws with ((rfl | rfl) | rfl) | rfl <;> exact absurd h (by decide)

lemma dropWhile_ws_append (w : List Char) {d : Char} (t : List Char)
    (hw : ∀ c ∈ w, c.isWhitespace = true) (hd : d.isWhitespace = false) :
    List.dropWhile Char.isWhitespace (w ++ d :: t) = d :: t := by
  induction w with
  | nil => simp [List.dropWhile_cons, hd]
  | cons c w ih =>
    have hc := hw c (List.mem_cons_self c w)
    rw [List.cons_append, List.dropWhile_cons, if_pos hc]
    exact ih (fun x hx => hw x (List.mem_cons_of_mem _ hx))

lemma digitsVal_one (a : Char) : digitsVal [a] = digitVal a := by
  simp [digitsVal]

lemma digitsVal_two (a b : Char) : digitsVal [a, b] = digitVal a * 10 + digitVal b := by
  simp [digitsVal]

lemma scanNumber2_sound {l : List Char} {v : Nat} {r : List Char}
    (h : scanNumber2 l = some (v, r)) :
    ∃ ds, l = ds ++ r ∧ (∀ c ∈ ds, c.isDigit = true) ∧
      (ds.length = 1 ∨ ds.length = 2) ∧ digitsVal ds = v := by
  match l with
  | [] => simp [scanNumber2] at h
  | c :: rest =>
    by_cases hc : c.isDigit = true
    · match rest with
      | [] =>
        simp [scanNumber2, hc] at h
        obtain ⟨rfl, rfl⟩ := h
        exact ⟨[c], by simp, by simp [hc], by simp, digitsVal_one c⟩
      | c2 :: rest2 =>
        by_cases hc2 : c2.isDigit = true
        · simp [scanNumber2, hc, hc2] at h
          obtain ⟨rfl, rfl⟩ := h
          refine ⟨[c, c2], by simp, ?_, by simp, digitsVal_two c c2⟩
          intro x hx
          simp at hx
          rcases hx with rfl | rfl
          · exact hc
          · exact hc2
        · simp [scanNumber2, hc, hc2] at h
          obtain ⟨rfl, rfl⟩ := h
          exact ⟨[c], by simp, by simp [hc], by simp, digitsVal_one c⟩
    · simp [scanNumber2, hc] at h

lemma scanNumber2_single {a : Char} (ha : a.isDigit = true) :
    scanNumber2 [a] = some (digitVal a, []) := by
  simp [scanNumber2, ha]

lemma scanNumber2_one_then {a b : Char} (t : List Char) (ha : a.isDigit = true)
    (hb : b.isDigit = false) :
    scanNumber2 (a :: b :: t) = some (digitVal a, b :: t) := by
  simp [scanNumber2, ha, hb]

lemma scanNumber2_two {a b : Char} (t : List Char) (ha : a.isDigit = true)
    (hb : b.isDigit = true) :
    scanNumber2 (a :: b :: t) = some (digitVal a * 10 + digitVal b, t) := by
  simp [scanNumber2, ha, hb]

/-- Greedy scan of a 1-or-2 digit group followed by a non-digit. -/
lemma scanNumber2_group {ds : List Char} (hds : ∀ c ∈ ds, c.isDigit = true)
    (hl : ds.length = 1 ∨ ds.length = 2) {b : Char} (hb : b.isDigit = false)
    (t : List Char) :
    scanNumber2 (ds ++ b :: t) = some (digitsVal ds, b :: t) := by
  rcases hl with h1 | h2
  · obtain ⟨a, rfl⟩ := List.length_eq_one.mp h1
    rw [digitsVal_one]
    exact scanNumber2_one_then t (hds a (by simp)) hb
  · obtain ⟨a, a2, rfl⟩ := List.length_eq_two.mp h2
    rw [digitsVal_two]
    exact scanNumber2_two _ (hds a (by simp)) (hds a2 (by simp))

/-- Greedy scan of a 1-or-2 digit group at the end of the input. -/
lemma scanNumber2_group_end {ms : List Char} (hms : ∀ c ∈ ms, c.isDigit = true)
    (hl : ms.length = 1 ∨ ms.length = 2) :
    scanNumber2 ms = some (digitsVal ms, []) := by
  rcases hl with h1 | h2
  · obtain ⟨a, rfl⟩ := List.length_eq_one.mp h1
    rw [digitsVal_one]
    exact scanNumber2_single (hms a (by simp))
  · obtain ⟨a, a2, rfl⟩ := List.length_eq_two.mp h2
    rw [digitsVal_two]
    exact scanNumber2_two _ (hms a (by simp)) (hms a2 (by simp))

lemma chronoParseHM_sound {s : List Char} {hm : Nat × Nat}
    (h : chronoParseHM s = some hm) : lenientHM s := by
  unfold chronoParseHM at h
  cases hs1 : scanNumber2 (List.dropWhile Char.isWhitespace s) with
  | none => rw [hs1] at h; exact absurd h (by simp)
  | some val1 =>
    obtain ⟨hv, r1⟩ := val1
    rw [hs1] at h
    replace h : parseAfterHour hv r1 = some hm := h
    cases r1 with
    | nil => exact absurd h (by simp [parseAfterHour])
    | cons c r2 =>
      by_cases hc : c = ':'
      · subst hc
        rw [parseAfterHour, if_pos rfl] at h
        unfold parseAfterColon at h
        cases hs2 : scanNumber2 (List.dropWhile Char.isWhitespace r2) with
        | none => rw [hs2] at h; exact absurd h (by simp)
        | some val2 =>
          obtain ⟨mv, r3⟩ := val2
          rw [hs2] at h
          replace h : parseAfterMinutes hv mv r3 = some hm := h
          cases r3 with
          | cons x xs => exact absurd h (by simp [parseAfterMinutes])
          | nil =>
            by_cases hr : hv ≤ 23 ∧ mv ≤ 59
            · obtain ⟨ds, hds_eq, hds_dig, hds_len, hds_val⟩ := scanNumber2_sound hs1
              obtain ⟨ms, hms_eq, hms_dig, hms_len, hms_val⟩ := scanNumber2_sound hs2
              rw [List.append_nil] at hms_eq
              refine ⟨List.takeWhile Char.isWhitespace s, ds,
                List.takeWhile Char.isWhitespace r2, ms,
                fun c hc => List.mem_takeWhile_imp hc, hds_dig,
                fun c hc => List.mem_takeWhile_imp hc, hms_dig,
                hds_len, hms_len, ?_, ?_, ?_⟩
              · rw [hds_val]; exact hr.1
              · rw [hms_val]; exact hr.2
              · have hr2 : List.takeWhile Char.isWhitespace r2 ++ ms = r2 := by
                  rw [← hms_eq]
                  exact List.takeWhile_append_dropWhile Char.isWhitespace r2
                calc s = List.takeWhile Char.isWhitespace s
                        ++ List.dropWhile Char.isWhitespace s :=
                      (List.takeWhile_append_dropWhile _ _).symm
                  _ = List.takeWhile Char.isWhitespace s ++ (ds ++ ':' :: r2) := by
                      rw [hds_eq]
                  _ = List.takeWhile Char.isWhitespace s
                        ++ (ds ++ ':' :: (List.takeWhile Char.isWhitespace r2 ++ ms)) := by
                      rw [hr2]
                  _ = List.takeWhile Char.isWhitespace s ++ ds
                        ++ ':' :: (List.takeWhile Char.isWhitespace r2 ++ ms) := by
                      simp [List.append_assoc]
            · rw [parseAfterMinutes, if_neg hr] at h
              exact absurd h (by simp)
      · rw [parseAfterHour, if_neg hc] at h
        exact absurd h (by simp)

lemma chronoParseHM_complete {s : List Char} (h : lenientHM s) :
    ∃ hv mv, chronoParseHM s = some (hv, mv) := by
  obtain ⟨w1, ds, w2, ms, hw1, hds, hw2, hms, hlds, hlms, hvds, hvms, rfl⟩ := h
  have hds_cons : ∃ a rest, ds = a :: rest := by
    rcases hlds with h1 | h2
    · obtain ⟨a, rfl⟩ := List.length_eq_one.mp h1; exact ⟨a, [], rfl⟩
    · obtain ⟨a, b, rfl⟩ := List.length_eq_two.mp h2; exact ⟨a, [b], rfl⟩
  have hms_cons : ∃ a rest, ms = a :: rest := by
    rcases hlms with h1 | h2
    · obtain ⟨a, rfl⟩ := List.length_eq_one.mp h1; exact ⟨a, [], rfl⟩
    · obtain ⟨a, b, rfl⟩ := List.length_eq_two.mp h2; exact ⟨a, [b], rfl⟩
  have hdrop1 : List.dropWhile Char.isWhitespace (w1 ++ ds ++ ':' :: (w2 ++ ms))
      = ds ++ ':' :: (w2 ++ ms) := by
    obtain ⟨a, rest, rfl⟩ := hds_cons
    have := dropWhile_ws_append w1 (t := rest ++ ':' :: (w2 ++ ms)) hw1
      (digit_not_ws (hds a (by simp)))
    simpa using this
  have hdrop2 : List.dropWhile Char.isWhitespace (w2 ++ ms) = ms := by
    obtain ⟨a, rest, rfl⟩ := hms_cons
    exact dropWhile_ws_append w2 (t := rest) hw2 (digit_not_ws (hms a (by simp)))
  have hscan1 : scanNumber2 (ds ++ ':' :: (w2 ++ ms))
      = some (digitsVal ds, ':' :: (w2 ++ ms)) :=
    scanNumber2_group hds hlds (by decide) _
  have hscan2 : scanNumber2 ms = some (digitsVal ms, []) :=
    scanNumber2_group_end hms hlms
  refine ⟨digitsVal ds, digitsVal ms, ?_⟩
  unfold chronoParseHM
  rw [hdrop1, hscan1]
  show parseAfterHour (digitsVal ds) (':' :: (w2 ++ ms)) = _
  rw [parseAfterHour, if_pos rfl]
  unfold parseAfterColon
  rw [hdrop2, hscan2]
  show parseAfterMinutes (digitsVal ds) (digitsVal ms) [] = _
  rw [parseAfterMinutes, if_pos ⟨hvds, hvms⟩]

/-! ## Claim theorems -/

/-- Claim C9: for every time-of-day and every "now", the single-day delay
calculation `get_delay_seconds` returns a non-negative number of seconds;
when the target time on the current date is strictly after now the result is
their difference, otherwise the target is rolled forward exactly one calendar
day and the difference is taken against that. -/
theorem C9_single_day_delay (t offs : Nat) (ht : t < 86400)
    (hoffs : offs < 86400 * 1000000000) :
    0 ≤ get_delay_seconds t offs ∧
    ((offs : Int) < (t : Int) * 1000000000 →
      get_delay_seconds t offs = ((t : Int) * 1000000000 - (offs : Int)) / 1000000000) ∧
    ((t : Int) * 1000000000 ≤ (offs : Int) →
      get_delay_seconds t offs
        = ((t : Int) * 1000000000 + 86400 * 1000000000 - (offs : Int)) / 1000000000) := by
  refine ⟨get_delay_seconds_nonneg t offs hoffs, ?_, ?_⟩
  · intro h
    unfold get_delay_seconds
    rw [if_neg (by omega)]
  · intro h
    unfold get_delay_seconds nanosPerDay
    rw [if_pos (by omega)]

/-- Witness for C9 at target 01:00 with "now" at midnight. -/
theorem C9_witness :
    (3600 : Nat) < 86400 ∧ (0 : Nat) < 86400 * 1000000000 ∧
      0 ≤ get_delay_seconds 3600 0 :=
  ⟨by norm_num, by norm_num, (C9_single_day_delay 3600 0 (by norm_num) (by norm_num)).1⟩

/-- Claim C10 (amended): for the inputs schedule activation can produce
(`days_to_wait` comes from two indices in `0..6`, the time-of-day is within
the day), the delay computed before the negative-delay correction is always
non-negative — though it can be exactly 0, not strictly positive — so the
branch that adds 86400 when `delay < 0` is never executed. -/
theorem C10_raw_delay_nonneg (t offs ti di : Nat) (ht : t < 86400)
    (hoffs : offs < 86400 * 1000000000) (hti : ti ≤ 6) (hdi : di ≤ 6) :
    0 ≤ rawWeeklyDelay t offs ti di ∧
    days_to_wait ti di ≤ 6 ∧
    weeklyDelay t offs ti di = rawWeeklyDelay t offs ti di := by
  have hraw := rawWeeklyDelay_nonneg t offs ti di hoffs
  refine ⟨hraw, days_to_wait_le_six hti hdi, ?_⟩
  unfold weeklyDelay
  rw [if_neg (not_lt.mpr hraw)]

/-- Counterexample for C10 as stated: a successfully parsing entry
(`"00:00"` on today's weekday) evaluated at 23:59:59.5 gives a raw delay of
exactly 0 — the single-day calculation is not strictly positive. -/
theorem C10_counterexample :
    chronoParseHM ("00:00".data) = some (0, 0) ∧
    rawWeeklyDelay 0 86399500000000 0 0 = 0 ∧
    ¬ 0 < rawWeeklyDelay 0 86399500000000 0 0 :=
  ⟨by decide, by decide, by decide⟩

/-- Witness for C10 at 09:00 viewed from Monday 10:00 with a Wednesday
target. -/
theorem C10_witness :
    0 ≤ rawWeeklyDelay 32400 (36000 * 1000000000) 0 2 ∧
    weeklyDelay 32400 (36000 * 1000000000) 0 2 = rawWeeklyDelay 32400 (36000 * 1000000000) 0 2 :=
  ⟨(C10_raw_delay_nonneg 32400 (36000 * 1000000000) 0 2 (by norm_num) (by norm_num)
      (by norm_num) (by norm_num)).1,
   (C10_raw_delay_nonneg 32400 (36000 * 1000000000) 0 2 (by norm_num) (by norm_num)
      (by norm_num) (by norm_num)).2.2⟩

/-- Claim C1: the weekly delay calculation (lines 182–190), called with the
target weekday equal to today's weekday (index 0 each) and a target
time-of-day of 09:00 that already elapsed at "now" = 10:00, yields 82800
seconds — tomorrow 09:00.  That value lies in the forbidden `[0, 86400)`
band and not in the required `[6*86400, 7*86400)` band: `get_delay_seconds`
applies its one-day rollover instead of the special 7-day case the weekly
schedule needs. -/
theorem C1_same_day_elapsed_rolls_to_tomorrow :
    weeklyDelay 32400 (36000 * 1000000000) 0 0 = 82800 ∧
    days_to_wait 0 0 = 0 ∧
    (0 : Int) ≤ 82800 ∧ (82800 : Int) < 86400 ∧
    ¬ (6 * 86400 ≤ (82800 : Int) ∧ (82800 : Int) < 7 * 86400) :=
  ⟨by decide, by decide, by decide, by decide, by decide⟩

/-- Claim C2: the weekly delay calculation for a Wednesday 09:00 entry seen
from Monday 10:00 gives `days_to_wait = 2` but a total of 255600 seconds —
which is Thursday 09:00 (`3*86400 - 3600`), not the claimed
`2*86400 + (09:00 - 10:00) = 169200`: the next-day rollover of
`get_delay_seconds` is applied to the base even though `days_to_wait > 0`. -/
theorem C2_future_weekday_gets_extra_day :
    days_to_wait 0 2 = 2 ∧
    weeklyDelay 32400 (36000 * 1000000000) 0 2 = 255600 ∧
    (255600 : Int) ≠ 2 * 86400 + (9 * 3600 - 10 * 3600) ∧
    (255600 : Int) = 3 * 86400 - 3600 :=
  ⟨by decide, by decide, by decide, by decide⟩

/-- Claim C4: a countdown task with non-negative delay `d` (within the `i64`
domain of the Rust variable): if `d > 300` it sleeps `d - 300` seconds, shows
the warning exactly once, sleeps a further 300 seconds, then invokes the
shutdown; if `d ≤ 300` it sleeps `d` seconds and invokes only the shutdown,
never the warning. -/
theorem C4_countdown_warning_discipline (d : Int) (h0 : 0 ≤ d) (h64 : d < 2 ^ 63) :
    (300 < d →
      countdownCycle d = [TaskEvent.sleep (d - 300).toNat, TaskEvent.warn,
        TaskEvent.sleep 300, TaskEvent.shutdown] ∧
      (countdownCycle d).count TaskEvent.warn = 1 ∧
      (countdownCycle d).count TaskEvent.shutdown = 1) ∧
    (d ≤ 300 →
      countdownCycle d = [TaskEvent.sleep d.toNat, TaskEvent.shutdown] ∧
      TaskEvent.warn ∉ countdownCycle d ∧
      (countdownCycle d).count TaskEvent.shutdown = 1) := by
  constructor
  · intro hgt
    have hc : countdownCycle d = [TaskEvent.sleep (d - 300).toNat, TaskEvent.warn,
        TaskEvent.sleep 300, TaskEvent.shutdown] := by
      unfold countdownCycle
      rw [if_pos hgt, u64cast_of_nonneg (by omega) (by omega)]
    refine ⟨hc, ?_, ?_⟩ <;> rw [hc] <;> simp [List.count_cons]
  · intro hle
    have hc : countdownCycle d = [TaskEvent.sleep d.toNat, TaskEvent.shutdown] := by
      unfold countdownCycle
      rw [if_neg (not_lt.mpr hle), u64cast_of_nonneg h0 (by omega)]
    refine ⟨hc, ?_, ?_⟩ <;> rw [hc] <;> simp [List.count_cons]

/-- Witness for C4 at delays 301 and 200. -/
theorem C4_witness :
    countdownCycle 301 = [TaskEvent.sleep 1, TaskEvent.warn,
      TaskEvent.sleep 300, TaskEvent.shutdown] ∧
    countdownCycle 200 = [TaskEvent.sleep 200, TaskEvent.shutdown] ∧
    TaskEvent.warn ∉ countdownCycle 200 := by
  refine ⟨?_, ?_, ?_⟩
  · have h := ((C4_countdown_warning_discipline 301 (by norm_num) (by norm_num)).1
      (by norm_num)).1
    simpa using h
  · have h := ((C4_countdown_warning_discipline 200 (by norm_num) (by norm_num)).2
      (by norm_num)).1
    simpa using h
  · exact ((C4_countdown_warning_discipline 200 (by norm_num) (by norm_num)).2
      (by norm_num)).2.1

/-- Claim C5: a recurring countdown thread uses its spawn delay only in cycle
0 and resets the delay to exactly `7 * 86400` seconds for every later cycle;
a cycle exists for every `n` (the loop never terminates on its own) and each
cycle invokes the shutdown exactly once.  The one-shot manual thread is a
single cycle: it invokes the shutdown exactly once, as its final event, and
then ends. -/
theorem C5_recurring_reset_and_oneshot_end (d : Int) (n : Nat) :
    (1 ≤ n → recurringDelay d n = 7 * 86400 ∧
      recurringCycleTrace d n = countdownCycle (7 * 86400)) ∧
    (recurringCycleTrace d n).count TaskEvent.shutdown = 1 ∧
    (manualTaskTrace d).count TaskEvent.shutdown = 1 ∧
    (manualTaskTrace d).getLast? = some TaskEvent.shutdown := by
  refine ⟨?_, countdownCycle_shutdown_count _, countdownCycle_shutdown_count _,
    countdownCycle_getLast _⟩
  intro hn
  match n, hn with
  | m + 1, _ =>
    constructor
    · norm_num [recurringDelay]
    · show countdownCycle (recurringDelay d (m + 1)) = countdownCycle (7 * 86400)
      norm_num [recurringDelay]

/-- Witness for C5 at spawn delay 200, cycle 1. -/
theorem C5_witness :
    recurringCycleTrace 200 1 = countdownCycle (7 * 86400) ∧
    (manualTaskTrace 200).count TaskEvent.shutdown = 1 :=
  ⟨((C5_recurring_reset_and_oneshot_end 200 1).1 (by norm_num)).2,
   (C5_recurring_reset_and_oneshot_end 200 1).2.2.1⟩

/-- Claim C3 (amended): the chrono-based parser used by manual scheduling and
activation accepts exactly the strings of `lenientHM` — one *or two* digits
for each field, each field optionally preceded by whitespace, hour ≤ 23,
minute ≤ 59 — while the regex validator of the save path accepts exactly the
two-digit:two-digit shapes of `strictShape` with *no* range check.  Every
other string is rejected. -/
theorem C3_parser_characterization (s : List Char) :
    ((chronoParseHM s).isSome = true ↔ lenientHM s) ∧
    (timeRegexMatches s = true ↔ strictShape s) := by
  constructor
  · constructor
    · intro h
      obtain ⟨hm, hhm⟩ := Option.isSome_iff_exists.mp h
      exact chronoParseHM_sound hhm
    · intro h
      obtain ⟨hv, mv, hp⟩ := chronoParseHM_complete h
      rw [hp]
      rfl
  · constructor
    · intro h
      match s with
      | [d1, d2, c, d3, d4] =>
        replace h : (d1.isDigit && d2.isDigit && decide (c = ':')
            && d3.isDigit && d4.isDigit) = true := h
        simp only [Bool.and_eq_true, decide_eq_true_eq] at h
        obtain ⟨⟨⟨⟨h1, h2⟩, hc⟩, h3⟩, h4⟩ := h
        exact ⟨d1, d2, d3, d4, h1, h2, h3, h4, by rw [hc]⟩
      | [] => simp [timeRegexMatches] at h
      | [_] => simp [timeRegexMatches] at h
      | [_, _] => simp [timeRegexMatches] at h
      | [_, _, _] => simp [timeRegexMatches] at h
      | [_, _, _, _] => simp [timeRegexMatches] at h
      | _ :: _ :: _ :: _ :: _ :: _ :: _ => simp [timeRegexMatches] at h
    · rintro ⟨a, b, c, d, ha, hb, hc, hd, rfl⟩
      simp [timeRegexMatches, ha, hb, hc, hd]

/-- Counterexample for C3 as stated: `"9:30"` is not of the exactly-two-digit
shape yet the chrono parser accepts it (no rejection of single-digit hours),
and `"99:99"` passes the save-path regex although its hour and minute are out
of range. -/
theorem C3_counterexample :
    chronoParseHM ("9:30".data) = some (9, 30) ∧
    timeRegexMatches ("9:30".data) = false ∧
    timeRegexMatches ("99:99".data) = true ∧
    chronoParseHM ("99:99".data) = none :=
  ⟨by decide, by decide, by decide, by decide⟩

/-- `now.weekday().to_string()` (an abbreviated chrono day name) is never
found in `weekday_order` (full day names): the `today_index` lookup of lines
166–172 fails for every weekday. -/
lemma chronoToday_not_in_order : ∀ i : Nat,
    listPos (chronoWeekdayName i) weekday_order = none
  | 0 => by decide
  | 1 => by decide
  | 2 => by decide
  | 3 => by decide
  | 4 => by decide
  | 5 => by decide
  | _ + 6 => by
      show listPos "Sun" weekday_order = none
      decide

/-- No call of the `activate_schedules` loop body ever reaches the spawn:
the `today_index` lookup fails first whenever a time parses. -/
lemma processEntry_never_spawns (i nowNano : Nat) (day : String)
    (times : List (List Char)) (day' : String) (time : List Char) (d : Int) :
    processEntry (chronoWeekdayName i) nowNano day times
      ≠ EntryOutcome.spawned day' time d := by
  cases h1 : times.head? with
  | none => simp [processEntry, h1]
  | some time_str =>
    by_cases h2 : trimChars time_str = []
    · simp [processEntry, h1, h2]
    · cases h3 : chronoParseHM time_str with
      | none => simp [processEntry, h1, h2, h3]
      | some hm =>
        obtain ⟨hh, mm⟩ := hm
        simp [processEntry, h1, h2, h3, chronoToday_not_in_order i]

/-- Claim C6: manual scheduling appends exactly its descriptor — the source
time text together with the computed delay — to the registry when (and only
when) it spawns; schedule activation never records anything and, in this
code, never spawns a recurring task either (its weekday lookup for "today"
always fails); neither operation removes or reorders existing entries. -/
theorem C6_registry_append_only (st : AppState) (nowWd nowNano : Nat) :
    ((schedule_manual_shutdown st nowNano).1.manual_tasks
      = st.manual_tasks ++
        (match (schedule_manual_shutdown st nowNano).2 with
          | some d => [(st.manual_input, d)]
          | none => [])) ∧
    (activate_schedules st nowWd nowNano).1.manual_tasks = st.manual_tasks ∧
    (∀ o ∈ (activate_schedules st nowWd nowNano).2,
      ∀ day time d, o ≠ EntryOutcome.spawned day time d) := by
  refine ⟨?_, ?_, ?_⟩
  · cases hp : chronoParseHM (trimChars st.manual_input) with
    | none => simp [schedule_manual_shutdown, hp]
    | some hm =>
      obtain ⟨hh, mm⟩ := hm
      simp [schedule_manual_shutdown, hp]
  · simp [activate_schedules]
  · intro o ho day time d
    simp only [activate_schedules, List.mem_map] at ho
    obtain ⟨e, _, rfl⟩ := ho
    exact processEntry_never_spawns nowWd nowNano e.1 e.2 day time d

/-- Witness for C6: activating the example schedule leaves the empty registry
empty, and manual scheduling of `"22:15"` at midnight appends exactly its
descriptor. -/
theorem C6_witness :
    (activate_schedules exState 0 0).1.manual_tasks = exState.manual_tasks ∧
    (schedule_manual_shutdown exState 0).1.manual_tasks
      = exState.manual_tasks ++ [(("22:15".data), 80100)] := by
  constructor
  · exact (C6_registry_append_only exState 0 0).2.1
  · rw [(C6_registry_append_only exState 0 0).1]
    decide

/-- Claim C7: when the manual time text fails to parse, manual scheduling
reports the parse error in its status, spawns nothing, and leaves the
registry (and the rest of the state) unchanged. -/
theorem C7_manual_parse_error_atomic (st : AppState) (nowNano : Nat)
    (h : chronoParseHM (trimChars st.manual_input) = none) :
    (schedule_manual_shutdown st nowNano).2 = none ∧
    (schedule_manual_shutdown st nowNano).1.manual_tasks = st.manual_tasks ∧
    (schedule_manual_shutdown st nowNano).1.manual_status
      = ManualStatus.invalidFormat ∧
    (schedule_manual_shutdown st nowNano).1.schedule = st.schedule ∧
    (schedule_manual_shutdown st nowNano).1.manual_input = st.manual_input := by
  simp [schedule_manual_shutdown, h]

/-- Witness for C7 at the input `"25:00"` (hour out of range). -/
theorem C7_witness :
    chronoParseHM (trimChars ("25:00".data)) = none ∧
    (schedule_manual_shutdown exState25 0).2 = none ∧
    (schedule_manual_shutdown exState25 0).1.manual_tasks
      = exState25.manual_tasks := by
  refine ⟨by decide, ?_, ?_⟩
  · exact (C7_manual_parse_error_atomic exState25 0 (by decide)).1
  · exact (C7_manual_parse_error_atomic exState25 0 (by decide)).2.1

/-- Claim C8: activation processes every schedule entry independently (the
outcome list has one outcome per entry, each computed by the loop body alone,
so no entry's failure aborts the others); a non-blank entry whose time fails
to parse is skipped with the line-205 diagnostic and spawns nothing; a
parsable entry whose weekday label is not one of the canonical seven is
skipped with a diagnostic and spawns nothing. -/
theorem C8_activation_skips_and_continues (st : AppState) (nowWd nowNano : Nat) :
    ((activate_schedules st nowWd nowNano).2
      = st.schedule.map (fun e => processEntry (chronoWeekdayName nowWd) nowNano e.1 e.2)) ∧
    ((activate_schedules st nowWd nowNano).2.length = st.schedule.length) ∧
    (∀ day time_str ts, trimChars time_str ≠ [] → chronoParseHM time_str = none →
      processEntry (chronoWeekdayName nowWd) nowNano day (time_str :: ts)
        = EntryOutcome.badTime day time_str) ∧
    (∀ day time_str ts h m, trimChars time_str ≠ [] →
      chronoParseHM time_str = some (h, m) →
      listPos day weekday_order = none →
      isDiagnosedSkip (processEntry (chronoWeekdayName nowWd) nowNano day (time_str :: ts))
        = true) := by
  refine ⟨rfl, by simp [activate_schedules], ?_, ?_⟩
  · intro day time_str ts hne hp
    simp [processEntry, hne, hp]
  · intro day time_str ts h m hne hp hday
    simp [processEntry, hne, hp, chronoToday_not_in_order nowWd, isDiagnosedSkip]

/-- Witness for C8: a malformed time is skipped with the bad-time diagnostic,
and an unknown weekday label is skipped with a diagnostic. -/
theorem C8_witness :
    processEntry (chronoWeekdayName 0) 0 "Monday" [("99:99".data)]
      = EntryOutcome.badTime "Monday" ("99:99".data) ∧
    isDiagnosedSkip (processEntry (chronoWeekdayName 0) 0 "Funday" [("10:00".data)])
      = true := by
  constructor
  · exact (C8_activation_skips_and_continues exState 0 0).2.2.1
      "Monday" ("99:99".data) [] (by decide) (by decide)
  · exact (C8_activation_skips_and_continues exState 0 0).2.2.2
      "Funday" ("10:00".data) [] 10 0 (by decide) (by decide) (by decide)

end ShutdownHelper
